import Mathlib

/-!
Verification development for the AI-Storybook-Generator repository.

The repository is a browser application that generates an illustrated
children's storybook by orchestrating generative-AI calls
(`src/services/geminiService.ts`) and renders/exports the result
(`StorybookViewer` component).  This file gives a shallow embedding of the
data model and of the operations the specification's claims are about:

* `Story` / `StoryPage` — `src/types.ts`;
* `handleApiError` — the error-classification helper of
  `src/services/geminiService.ts`;
* `runStoryAndImages` — the `generateStoryAndImages` orchestrator, modelled
  as a deterministic function of an `Oracle` (the responses of the remote
  generative API) and of an arrival order for the concurrent per-page image
  completions; it produces the trace of callback events and the outcome;
* `serializeStoryTxt` — the `story.txt` serialization of
  `handleExportPackage`, together with a reader modelled from the spec;
* `pageFrameDurationMs` — the per-page display duration of
  `handleCreateVideo`;
* `goToNextPage` / `goToPrevPage` — the viewer's page navigation.
-/

namespace Storybook

/-- `StoryPage` from `src/types.ts`: page number, story text, illustration
prompt, and the optional image reference (`imageUrl?: string`). -/
structure StoryPage where
  pageNumber : Nat
  storyText : String
  illustrationPrompt : String
  imageUrl : Option String
  deriving Repr, DecidableEq

/-- `Story` from `src/types.ts`: a title and an ordered list of pages. -/
structure Story where
  title : String
  pages : List StoryPage
  deriving Repr, DecidableEq

/-- The user-facing error-message keys used by `geminiService.ts`
(`keyof typeof translations.en.errors`): the four classified kinds plus
the context-specific fallback keys passed at each call site. -/
inductive ErrKey where
  | apiKeyInvalid
  | rateLimitExceeded
  | promptBlocked
  | serverError
  | inspirationFailed
  | characterFailed
  | storyFailed
  | imageFailed
  deriving Repr, DecidableEq

/-- `ApiError` from `geminiService.ts`: the raw message together with the
user-friendly message key. -/
structure ApiError where
  message : String
  userFriendlyMessageKey : ErrKey
  deriving Repr, DecidableEq

/-- Substring containment on character lists, embedding JavaScript's
`String.prototype.includes` used by `handleApiError`. -/
def charsContain (hay needle : List Char) : Bool :=
  match hay with
  | [] => decide (needle = [])
  | _ :: rest => needle.isPrefixOf hay || charsContain rest needle

/-- `errorMessage.includes(pat)` from `handleApiError`. -/
def includesSubstr (hay pat : String) : Bool :=
  charsContain hay.data pat.data

/-- `handleApiError` from `src/services/geminiService.ts` (lines 17–37):
classifies a raw error message by substring matching, falling back to the
context-specific key. -/
def handleApiError (errorMessage : String) (contextKey : ErrKey) : ApiError :=
  if includesSubstr errorMessage "API key not valid" || includesSubstr errorMessage "[400]" then
    ⟨errorMessage, ErrKey.apiKeyInvalid⟩
  else if includesSubstr errorMessage "[429]" then
    ⟨errorMessage, ErrKey.rateLimitExceeded⟩
  else if includesSubstr errorMessage "prompt was blocked" then
    ⟨errorMessage, ErrKey.promptBlocked⟩
  else if includesSubstr errorMessage "[500]" || includesSubstr errorMessage "[503]" then
    ⟨errorMessage, ErrKey.serverError⟩
  else
    ⟨errorMessage, contextKey⟩

/-- JavaScript `Array.prototype.join(sep)`, used by `handleExportPackage`
as `story.pages.map(...).join('\n\n')`. -/
def joinSep (sep : String) : List String → String
  | [] => ""
  | [b] => b
  | b :: c :: bs => b ++ sep ++ joinSep sep (c :: bs)

/-- The per-page block of `story.txt`:
the template literal `Page ${p.pageNumber}\n${p.storyText}`. -/
def pageBlockStr (p : StoryPage) : String :=
  "Page " ++ toString p.pageNumber ++ "\n" ++ p.storyText

/-- The `story.txt` content written by `handleExportPackage`
(StorybookViewer): title, a blank line, then the page blocks joined by
blank lines. -/
def serializeStoryTxt (s : Story) : String :=
  s.title ++ "\n\n" ++ joinSep "\n\n" (s.pages.map pageBlockStr)

/-- Split a character list at each occurrence of two consecutive newline
characters (leftmost-first, non-overlapping): the block boundaries of the
`story.txt` format. -/
def splitBB : List Char → List (List Char)
  | [] => [[]]
  | [c] => [[c]]
  | c₁ :: c₂ :: rest =>
    if c₁ = '\n' ∧ c₂ = '\n' then
      [] :: splitBB rest
    else
      match splitBB (c₂ :: rest) with
      | [] => [[c₁]]
      | b :: bs => (c₁ :: b) :: bs

/-- Whether a character list contains two consecutive newline characters
(a blank-line block boundary). -/
def hasBB : List Char → Bool
  | [] => false
  | [_] => false
  | c₁ :: c₂ :: rest => (decide (c₁ = '\n') && decide (c₂ = '\n')) || hasBB (c₂ :: rest)

/-- Everything after the first newline of a block: the block's text once
its `Page <n>` heading line is removed. -/
def afterFirstNewline (cs : List Char) : List Char :=
  (cs.dropWhile (fun c => c ≠ '\n')).drop 1

/-- Modelled from the spec: the repository has no reader for the exported
`story.txt` (the spec's round-trip property says "re-reading it yields the
same title text and same per-page text content"), so the evident reader of
the format is modelled here: the text up to the first blank line is the
title; each following blank-line-separated block is a page whose text is
everything after the block's `Page <n>` heading line.  Returns the title
and the per-page texts. -/
def parseStoryTxt (text : String) : String × List String :=
  match splitBB text.data with
  | [] => ("", [])
  | t :: bs => (⟨t⟩, bs.map fun b => (⟨afterFirstNewline b⟩ : String))

/-- The per-page frame duration of `handleCreateVideo`
(`src` StorybookViewer, `const duration = Math.max(4000, page.storyText.length * 100)`),
in milliseconds. -/
def pageFrameDurationMs (storyText : String) : Nat :=
  max 4000 (storyText.length * 100)

/-- `goToNextPage` of the StorybookViewer:
`setCurrentPage((prev) => Math.min(prev + 1, totalPages - 1))`. -/
def goToNextPage (totalPages currentPage : Int) : Int :=
  min (currentPage + 1) (totalPages - 1)

/-- `goToPrevPage` of the StorybookViewer:
`setCurrentPage((prev) => Math.max(prev - 1, 0))`. -/
def goToPrevPage (currentPage : Int) : Int :=
  max (currentPage - 1) 0

/-- The responses of the remote generative API during one run of
`generateStoryAndImages`.  Raw SDK failures are `Except.error` carrying the
raw error message (`error.message`); `imageResp i` is the response for the
`i`-th page's image request, with `.ok bytes` the inline base64 image bytes
(a falsy/empty `imageBytes` models the "no image part" case). -/
structure Oracle where
  characterResp : Except String String
  storyResp : Except String Story
  imageResp : Nat → Except String String

/-- `generateCharacterProfile` (geminiService.ts lines 90–106) applied to a
raw response: trims the text on success, classifies raw failures with the
`characterFailed` context key. -/
def generateCharacterProfile (resp : Except String String) : Except ApiError String :=
  match resp with
  | Except.error e => Except.error (handleApiError e ErrKey.characterFailed)
  | Except.ok t => Except.ok t.trim

/-- `generateStoryContent` (geminiService.ts lines 108–138) applied to the
parsed JSON response: rejects a falsy title or an empty page list with the
"Invalid story structure" error, classifies raw failures with the
`storyFailed` context key.  Note that the number of pages is NOT checked
against the requested page count. -/
def generateStoryContent (resp : Except String Story) : Except ApiError Story :=
  match resp with
  | Except.error e => Except.error (handleApiError e ErrKey.storyFailed)
  | Except.ok s =>
    if s.title = "" || s.pages.isEmpty then
      Except.error (handleApiError "Invalid story structure received from API." ErrKey.storyFailed)
    else
      Except.ok s

/-- `generateImageForPage` (geminiService.ts lines 140–194) applied to a raw
response: on success returns the data URL built from the base64 bytes; an
empty `imageBytes` triggers the "No image was generated." error; raw
failures are classified with the `imageFailed` context key. -/
def generateImageForPage (resp : Except String String) : Except ApiError String :=
  match resp with
  | Except.error e => Except.error (handleApiError e ErrKey.imageFailed)
  | Except.ok bytes =>
    if bytes = "" then
      Except.error (handleApiError "No image was generated." ErrKey.imageFailed)
    else
      Except.ok ("data:image/jpeg;base64," ++ bytes)

/-- One observable callback invocation of `generateStoryAndImages`:
a progress report (`onProgress`), a remote request being issued, or a
publication to the `onCompletePage` sink (the full text-only story, or the
per-image partial update identified by the matched page number and the new
image URL). -/
inductive Event where
  | progress (key : String) (current total : Option Nat)
  | characterRequest
  | storyRequest (numberOfPages : Nat)
  | imageRequest (index : Nat)
  | publishStory (s : Story)
  | publishUpdate (pageNumber : Nat) (imageUrl : String)
  deriving Repr, DecidableEq

/-- The body of the per-image `onCompletePage` updater (geminiService.ts
lines 220–226) acting on one page: set `imageUrl` on the pages whose
`pageNumber` matches, leave every other page unchanged. -/
def updatePage (pn : Nat) (url : String) (p : StoryPage) : StoryPage :=
  if p.pageNumber = pn then { p with imageUrl := some url } else p

/-- The per-image partial update applied to the whole page list:
`prevStory.pages.map (p => p.pageNumber === page.pageNumber ? { ...p, imageUrl } : p)`. -/
def applyUpd (ps : List StoryPage) (ku : Nat × String) : List StoryPage :=
  ps.map (updatePage ku.1 ku.2)

/-- The per-image partial update applied to the whole story:
`{ ...prevStory, pages: updatedPages }`. -/
def applyImageUpdate (pn : Nat) (url : String) (s : Story) : Story :=
  { s with pages := applyUpd s.pages (pn, url) }

/-- The functional updater passed to `onCompletePage` for one finished
image: `prevStory => { if (!prevStory) return null; ... }`. -/
def onCompletePageUpdater (pn : Nat) (url : String) : Option Story → Option Story
  | none => none
  | some s => some (applyImageUpdate pn url s)

/-- The `onProgress("painting", i+1, total)` reports and image requests, in
page-list order: each async arrow of `storyStructure.pages.map` runs
synchronously up to its first await, so these fire in index order before
any image resolves. -/
def paintingEvents (total : Nat) : List Event :=
  (List.range total).flatMap fun i =>
    [Event.progress "painting" (some (i + 1)) (some total), Event.imageRequest i]

/-- The partial updates published by the image completions, in arrival
order: index `i` arriving with a successful image publishes the update
keyed by page `i`'s `pageNumber`.  Failed completions publish nothing. -/
def arrivedUpdates (pages : List StoryPage) (img : Nat → Except String String)
    (order : List Nat) : List (Nat × String) :=
  order.filterMap fun i =>
    match pages[i]?, generateImageForPage (img i) with
    | some p, Except.ok url => some (p.pageNumber, url)
    | _, _ => none

/-- The `onCompletePage` events of the image completions, in arrival order. -/
def completionEvents (pages : List StoryPage) (img : Nat → Except String String)
    (order : List Nat) : List Event :=
  (arrivedUpdates pages img order).map fun ku => Event.publishUpdate ku.1 ku.2

/-- The rejection `Promise.all` settles on: the classified error of the
first image completion (in arrival order) that failed, if any. -/
def firstImageError (img : Nat → Except String String) (order : List Nat) :
    Option ApiError :=
  order.findSome? fun i =>
    match generateImageForPage (img i) with
    | Except.error e => some e
    | Except.ok _ => none

/-- `generateStoryAndImages` (geminiService.ts lines 196–234) as a function
of the API responses and of the arrival order of the concurrent image
completions (`order` lists page indices in completion order; an execution
of the real code corresponds to a permutation of `0..pages.length-1`).
Returns the trace of callback events together with the outcome of the
returned promise. -/
def runStoryAndImages (numberOfPages : Nat) (oracle : Oracle) (order : List Nat) :
    List Event × Except ApiError Unit :=
  let tr0 := [Event.progress "loadingCharacter" none none, Event.characterRequest]
  match generateCharacterProfile oracle.characterResp with
  | Except.error e => (tr0, Except.error e)
  | Except.ok _characterProfile =>
    let tr1 := tr0 ++ [Event.progress "loadingCrafting" none none, Event.storyRequest numberOfPages]
    match generateStoryContent oracle.storyResp with
    | Except.error e => (tr1, Except.error e)
    | Except.ok story =>
      let tr2 := tr1 ++ [Event.publishStory story] ++ paintingEvents story.pages.length
      let tr3 := tr2 ++ completionEvents story.pages oracle.imageResp order
      match firstImageError oracle.imageResp order with
      | some e => (tr3, Except.error e)
      | none => (tr3 ++ [Event.progress "loadingReady" none none], Except.ok ())

/-- The `loadingReady` progress report emitted after `Promise.all` resolves. -/
def readyEv : Event :=
  Event.progress "loadingReady" none none

/-- The trace prefix of a run that got past the story-structure stage:
both progress reports, both text requests, the text-only story publication,
and the painting reports/image requests. -/
def preTrace (n : Nat) (story : Story) : List Event :=
  [Event.progress "loadingCharacter" none none, Event.characterRequest,
   Event.progress "loadingCrafting" none none, Event.storyRequest n,
   Event.publishStory story] ++ paintingEvents story.pages.length

/-- The caller's state transition for one published `onCompletePage` value:
the full story replaces the state, a functional update is applied to the
previous state ; other callbacks leave the state unchanged. -/
def applyEvent (st : Option Story) (e : Event) : Option Story :=
  match e with
  | Event.publishStory s => some s
  | Event.publishUpdate pn url => onCompletePageUpdater pn url st
  | _ => st

/-- The caller's state after consuming a trace, starting from the initial
`null` story state. -/
def finalState (tr : List Event) : Option Story :=
  tr.foldl applyEvent none

/-- A navigation click in the viewer: next-page or previous-page. -/
inductive NavOp where
  | next
  | prev
  deriving Repr, DecidableEq

/-- Apply one navigation click to the current page index. -/
def navStep (totalPages : Int) (currentPage : Int) : NavOp → Int
  | NavOp.next => goToNextPage totalPages currentPage
  | NavOp.prev => goToPrevPage currentPage

/-- The page index reached after a sequence of navigation clicks, starting
from the initial `useState(0)`. -/
def runNav (totalPages : Int) (ops : List NavOp) : Int :=
  ops.foldl (navStep totalPages) 0

/-! ## Theorems -/

/-- C7: `handleApiError` classifies every raw error message by the first
matching substring, in the precedence order `API key not valid`/`[400]`,
then `[429]`, then `prompt was blocked`, then `[500]`/`[503]`, and any
message matching none of these falls back to the supplied context-specific
key.  Being a total function of the message and context key, the
classification is total and deterministic. -/
theorem handleApiError_precedence (msg : String) (ctx : ErrKey) :
    ((includesSubstr msg "API key not valid" || includesSubstr msg "[400]") = true →
      handleApiError msg ctx = ⟨msg, ErrKey.apiKeyInvalid⟩) ∧
    ((includesSubstr msg "API key not valid" || includesSubstr msg "[400]") = false →
      includesSubstr msg "[429]" = true →
      handleApiError msg ctx = ⟨msg, ErrKey.rateLimitExceeded⟩) ∧
    ((includesSubstr msg "API key not valid" || includesSubstr msg "[400]") = false →
      includesSubstr msg "[429]" = false →
      includesSubstr msg "prompt was blocked" = true →
      handleApiError msg ctx = ⟨msg, ErrKey.promptBlocked⟩) ∧
    ((includesSubstr msg "API key not valid" || includesSubstr msg "[400]") = false →
      includesSubstr msg "[429]" = false →
      includesSubstr msg "prompt was blocked" = false →
      (includesSubstr msg "[500]" || includesSubstr msg "[503]") = true →
      handleApiError msg ctx = ⟨msg, ErrKey.serverError⟩) ∧
    ((includesSubstr msg "API key not valid" || includesSubstr msg "[400]") = false →
      includesSubstr msg "[429]" = false →
      includesSubstr msg "prompt was blocked" = false →
      (includesSubstr msg "[500]" || includesSubstr msg "[503]") = false →
      handleApiError msg ctx = ⟨msg, ctx⟩) := by
  unfold handleApiError
  refine ⟨?_, ?_, ?_, ?_, ?_⟩ <;> intros <;> simp_all

/-- Witness for C7: a concrete rate-limit message, classified through the
second precedence branch. -/
theorem handleApiError_precedence_witness :
    handleApiError "Error: [429] Too Many Requests" ErrKey.storyFailed =
      ⟨"Error: [429] Too Many Requests", ErrKey.rateLimitExceeded⟩ :=
  (handleApiError_precedence "Error: [429] Too Many Requests" ErrKey.storyFailed).2.1
    (by decide) (by decide)

/-- C9 is false as stated: the frame duration of `handleCreateVideo` is
`Math.max(4000, storyText.length * 100)`, which is not a fixed constant
times the character count — the empty text already gets 4000 ms while any
proportionality constant would give 0 ms. -/
theorem video_duration_not_proportional :
    ¬ ∃ c : Nat, ∀ s : String, pageFrameDurationMs s = c * s.length := by
  rintro ⟨c, h⟩
  have h0 := h ""
  have hlen : ("" : String).length = 0 := rfl
  rw [pageFrameDurationMs, hlen] at h0
  omega

/-- C9 (amended): the frame duration of `handleCreateVideo` is 100 ms per
character of the page's `storyText`, but with a floor of 4000 ms: the
duration is proportional to the text length (constant 100 ms/character)
exactly for texts of at least 40 characters, and is the constant 4000 ms
below that. -/
theorem video_duration_formula (s : String) :
    (40 ≤ s.length → pageFrameDurationMs s = 100 * s.length) ∧
    (s.length ≤ 40 → pageFrameDurationMs s = 4000) := by
  unfold pageFrameDurationMs
  constructor <;> intro h <;> omega

/-- Witness for C9 (amended): a 41-character text gets 4100 ms. -/
theorem video_duration_formula_witness :
    40 ≤ ("aaaaaaaaaaaaaaaaaaaaaaaaaaaaaaaaaaaaaaaaa" : String).length ∧
    pageFrameDurationMs "aaaaaaaaaaaaaaaaaaaaaaaaaaaaaaaaaaaaaaaaa" =
      100 * ("aaaaaaaaaaaaaaaaaaaaaaaaaaaaaaaaaaaaaaaaa" : String).length :=
  ⟨by decide, (video_duration_formula "aaaaaaaaaaaaaaaaaaaaaaaaaaaaaaaaaaaaaaaaa").1 (by decide)⟩

/-- A successful image generation produces a non-empty data URL. -/
theorem generateImageForPage_ok_ne_empty {r : Except String String} {u : String}
    (h : generateImageForPage r = Except.ok u) : u ≠ "" := by
  cases r with
  | error e => simp [generateImageForPage] at h
  | ok bytes =>
    simp only [generateImageForPage] at h
    split at h
    · simp at h
    · cases h
      intro h0
      have hlen := congrArg String.length h0
      rw [String.length_append] at hlen
      have hd : ("data:image/jpeg;base64," : String).length = 23 := by decide
      have hz : ("" : String).length = 0 := rfl
      rw [hd, hz] at hlen
      omega

/-- A failed image generation always rejects with an error classified under
the `imageFailed` context key. -/
theorem generateImageForPage_error_shape {r : Except String String} {err : ApiError}
    (h : generateImageForPage r = Except.error err) :
    ∃ raw, err = handleApiError raw ErrKey.imageFailed := by
  cases r with
  | error e =>
    simp only [generateImageForPage] at h
    exact ⟨e, by cases h; rfl⟩
  | ok bytes =>
    simp only [generateImageForPage] at h
    split at h
    · exact ⟨"No image was generated.", by cases h; rfl⟩
    · simp at h

/-- If the whole run resolved, every stage resolved. -/
theorem run_ok_inversion (n : Nat) (oracle : Oracle) (order : List Nat)
    (h : (runStoryAndImages n oracle order).2 = Except.ok ()) :
    (∃ p, generateCharacterProfile oracle.characterResp = Except.ok p) ∧
    (∃ st, generateStoryContent oracle.storyResp = Except.ok st) ∧
    firstImageError oracle.imageResp order = none := by
  unfold runStoryAndImages at h
  cases hc : generateCharacterProfile oracle.characterResp with
  | error e => rw [hc] at h; simp at h
  | ok p =>
    rw [hc] at h
    cases hs : generateStoryContent oracle.storyResp with
    | error e => rw [hs] at h; simp at h
    | ok st =>
      rw [hs] at h
      cases hfe : firstImageError oracle.imageResp order with
      | some err => rw [hfe] at h; simp at h
      | none => exact ⟨⟨p, rfl⟩, ⟨st, rfl⟩, rfl⟩

/-- Shape of a run that got past the story stage and whose image fan-in
rejected. -/
theorem run_err_shape (n : Nat) (oracle : Oracle) (order : List Nat)
    (story : Story) (profile : String) (err : ApiError)
    (hc : generateCharacterProfile oracle.characterResp = Except.ok profile)
    (hs : generateStoryContent oracle.storyResp = Except.ok story)
    (hfe : firstImageError oracle.imageResp order = some err) :
    runStoryAndImages n oracle order =
      (preTrace n story ++ completionEvents story.pages oracle.imageResp order,
       Except.error err) := by
  simp [runStoryAndImages, hc, hs, hfe, preTrace]

/-- Shape of a fully successful run. -/
theorem run_ok_shape (n : Nat) (oracle : Oracle) (order : List Nat)
    (story : Story) (profile : String)
    (hc : generateCharacterProfile oracle.characterResp = Except.ok profile)
    (hs : generateStoryContent oracle.storyResp = Except.ok story)
    (hfe : firstImageError oracle.imageResp order = none) :
    runStoryAndImages n oracle order =
      (preTrace n story ++ completionEvents story.pages oracle.imageResp order
        ++ [readyEv],
       Except.ok ()) := by
  simp [runStoryAndImages, hc, hs, hfe, preTrace, readyEv]

/-- Events that publish nothing leave the caller's state unchanged. -/
theorem foldl_applyEvent_of_no_publish (tr : List Event)
    (h : ∀ ev ∈ tr, (∀ s, ev ≠ Event.publishStory s) ∧
      ∀ pn u, ev ≠ Event.publishUpdate pn u) :
    ∀ st, tr.foldl applyEvent st = st := by
  induction tr with
  | nil => intro st; rfl
  | cons ev rest ih =>
    intro st
    have hev := h ev (List.mem_cons_self ev rest)
    have hstep : applyEvent st ev = st := by
      cases ev with
      | publishStory s => exact absurd rfl (hev.1 s)
      | publishUpdate pn u => exact absurd rfl (hev.2 pn u)
      | _ => rfl
    rw [List.foldl_cons, hstep]
    exact ih (fun e he => h e (List.mem_cons_of_mem ev he)) st

/-- The painting reports and image requests publish nothing. -/
theorem paintingEvents_no_publish (m : Nat) :
    ∀ ev ∈ paintingEvents m, (∀ s, ev ≠ Event.publishStory s) ∧
      ∀ pn u, ev ≠ Event.publishUpdate pn u := by
  intro ev hev
  simp only [paintingEvents, List.mem_flatMap, List.mem_range, List.mem_cons,
    List.not_mem_nil, or_false] at hev
  obtain ⟨i, _, hev | hev⟩ := hev <;> subst hev <;> exact ⟨fun s => by simp, fun pn u => by simp⟩

/-- Consuming the prefix of a post-story-stage run leaves the caller
holding the text-only story. -/
theorem finalState_preTrace (n : Nat) (story : Story) :
    (preTrace n story).foldl applyEvent none = some story := by
  simp only [preTrace, List.cons_append, List.nil_append, List.foldl_cons]
  have h5 : applyEvent (applyEvent (applyEvent (applyEvent (applyEvent none
      (Event.progress "loadingCharacter" none none)) Event.characterRequest)
      (Event.progress "loadingCrafting" none none)) (Event.storyRequest n))
      (Event.publishStory story) = some story := rfl
  rw [h5]
  exact foldl_applyEvent_of_no_publish _ (paintingEvents_no_publish _) _

/-- Consuming the published per-image updates folds them over the pages. -/
theorem foldl_applyEvent_updates (ups : List (Nat × String)) :
    ∀ s : Story,
      (ups.map fun ku => Event.publishUpdate ku.1 ku.2).foldl applyEvent (some s) =
        some { title := s.title, pages := ups.foldl applyUpd s.pages } := by
  induction ups with
  | nil => intro s; simp
  | cons ku rest ih =>
    intro s
    simp only [List.map_cons, List.foldl_cons]
    have hstep : applyEvent (some s) (Event.publishUpdate ku.1 ku.2) =
        some (applyImageUpdate ku.1 ku.2 s) := rfl
    rw [hstep, ih (applyImageUpdate ku.1 ku.2 s)]
    rfl

/-- The caller's final state of any run that got past the story stage:
the text-only story with all arrived updates folded in (whether or not the
image fan-in rejected). -/
theorem finalState_run (n : Nat) (oracle : Oracle) (order : List Nat)
    (story : Story) (profile : String)
    (hc : generateCharacterProfile oracle.characterResp = Except.ok profile)
    (hs : generateStoryContent oracle.storyResp = Except.ok story) :
    finalState (runStoryAndImages n oracle order).1 =
      some { title := story.title,
             pages := (arrivedUpdates story.pages oracle.imageResp order).foldl
               applyUpd story.pages } := by
  have hcomp : (completionEvents story.pages oracle.imageResp order).foldl
      applyEvent (some story) =
      some { title := story.title,
             pages := (arrivedUpdates story.pages oracle.imageResp order).foldl
               applyUpd story.pages } := by
    rw [completionEvents]
    exact foldl_applyEvent_updates _ story
  cases hfe : firstImageError oracle.imageResp order with
  | some err =>
    rw [run_err_shape n oracle order story profile err hc hs hfe]
    rw [finalState, List.foldl_append, finalState_preTrace, hcomp]
  | none =>
    rw [run_ok_shape n oracle order story profile hc hs hfe]
    rw [finalState, List.foldl_append, List.foldl_append, finalState_preTrace, hcomp]
    rfl

/-- Applying a list of partial updates preserves the number of pages. -/
theorem foldl_applyUpd_length (ups : List (Nat × String)) :
    ∀ ps : List StoryPage, (ups.foldl applyUpd ps).length = ps.length := by
  induction ups with
  | nil => intro ps; rfl
  | cons ku rest ih =>
    intro ps
    rw [List.foldl_cons, ih (applyUpd ps ku), applyUpd, List.length_map]

/-- Tracking one page position through a list of partial updates: every
field except `imageUrl` is preserved, and `imageUrl` is either untouched
(no update matched) or set by one of the matching updates. -/
theorem foldl_applyUpd_tracking (ups : List (Nat × String)) :
    ∀ (ps : List StoryPage) (j : Nat) (p : StoryPage), ps[j]? = some p →
      ∃ q : StoryPage, (ups.foldl applyUpd ps)[j]? = some q ∧
        q.pageNumber = p.pageNumber ∧ q.storyText = p.storyText ∧
        q.illustrationPrompt = p.illustrationPrompt ∧
        ((q = p ∧ ∀ ku ∈ ups, ku.1 ≠ p.pageNumber) ∨
         (∃ ku ∈ ups, ku.1 = p.pageNumber ∧ q.imageUrl = some ku.2)) := by
  induction ups with
  | nil =>
    intro ps j p hp
    exact ⟨p, hp, rfl, rfl, rfl, Or.inl ⟨rfl, by simp⟩⟩
  | cons ku rest ih =>
    intro ps j p hp
    have hp' : (applyUpd ps ku)[j]? = some (updatePage ku.1 ku.2 p) := by
      simp [applyUpd, List.getElem?_map, hp]
    obtain ⟨q, hq, hqn, hqs, hqi, hcase⟩ := ih (applyUpd ps ku) j (updatePage ku.1 ku.2 p) hp'
    rw [List.foldl_cons]
    by_cases hmatch : p.pageNumber = ku.1
    · have hup : updatePage ku.1 ku.2 p = { p with imageUrl := some ku.2 } := by
        simp [updatePage, hmatch]
      rw [hup] at hqn hqs hqi hcase
      refine ⟨q, hq, hqn, hqs, hqi, Or.inr ?_⟩
      rcases hcase with ⟨hqp, _⟩ | ⟨ku', hmem, hk', hu'⟩
      · exact ⟨ku, List.mem_cons_self ku rest, hmatch.symm, by rw [hqp]⟩
      · exact ⟨ku', List.mem_cons_of_mem ku hmem, by simpa using hk', hu'⟩
    · have hup : updatePage ku.1 ku.2 p = p := by
        simp [updatePage, hmatch]
      rw [hup] at hqn hqs hqi hcase
      refine ⟨q, hq, hqn, hqs, hqi, ?_⟩
      rcases hcase with ⟨hqp, hnone⟩ | ⟨ku', hmem, hk', hu'⟩
      · refine Or.inl ⟨hqp, ?_⟩
        intro ku' hku'
        rcases List.mem_cons.mp hku' with rfl | hku'
        · exact fun hcontra => hmatch hcontra.symm
        · exact hnone ku' hku'
      · exact Or.inr ⟨ku', List.mem_cons_of_mem ku hmem, hk', hu'⟩

/-- Every arrived update's URL is a non-empty data URL. -/
theorem arrivedUpdates_urls_ne_empty (pages : List StoryPage)
    (img : Nat → Except String String) (order : List Nat) :
    ∀ ku ∈ arrivedUpdates pages img order, ku.2 ≠ "" := by
  intro ku hku
  rw [arrivedUpdates] at hku
  obtain ⟨i, _, hfi⟩ := List.mem_filterMap.mp hku
  cases hpi : pages[i]? with
  | none => rw [hpi] at hfi; cases hgi : generateImageForPage (img i) <;> rw [hgi] at hfi <;> simp at hfi
  | some p =>
    rw [hpi] at hfi
    cases hgi : generateImageForPage (img i) with
    | error e => rw [hgi] at hfi; simp at hfi
    | ok url =>
      rw [hgi] at hfi
      simp only [Option.some_inj] at hfi
      have := generateImageForPage_ok_ne_empty hgi
      rw [← hfi]
      exact this

/-- An arrived successful completion contributes its page's update. -/
theorem arrivedUpdates_cover (pages : List StoryPage)
    (img : Nat → Except String String) (order : List Nat)
    (i : Nat) (p : StoryPage) (u : String)
    (hi : i ∈ order) (hpi : pages[i]? = some p)
    (hok : generateImageForPage (img i) = Except.ok u) :
    (p.pageNumber, u) ∈ arrivedUpdates pages img order := by
  rw [arrivedUpdates]
  exact List.mem_filterMap.mpr ⟨i, hi, by rw [hpi, hok]⟩

/-- The fan-in resolves exactly when every arrived completion fulfilled. -/
theorem firstImageError_eq_none_iff (img : Nat → Except String String)
    (order : List Nat) :
    firstImageError img order = none ↔
      ∀ i ∈ order, ∃ u, generateImageForPage (img i) = Except.ok u := by
  rw [firstImageError, List.findSome?_eq_none_iff]
  constructor
  · intro h i hi
    have hmi := h i hi
    cases hgi : generateImageForPage (img i) with
    | error e => rw [hgi] at hmi; simp at hmi
    | ok u => exact ⟨u, rfl⟩
  · intro h i hi
    obtain ⟨u, hu⟩ := h i hi
    rw [hu]

/-- With a single failing completion in the arrival order, the fan-in
rejects with exactly that completion's error. -/
theorem firstImageError_unique (img : Nat → Except String String)
    (order : List Nat) (f : Nat) (err : ApiError)
    (herr : generateImageForPage (img f) = Except.error err)
    (hothers : ∀ i ∈ order, i ≠ f → ∃ u, generateImageForPage (img i) = Except.ok u)
    (hf : f ∈ order) :
    firstImageError img order = some err := by
  induction order with
  | nil => cases hf
  | cons a rest ih =>
    rw [firstImageError, List.findSome?_cons]
    by_cases ha : a = f
    · subst ha
      rw [herr]
    · obtain ⟨u, hu⟩ := hothers a (List.mem_cons_self a rest) ha
      rw [hu]
      have hf' : f ∈ rest := by
        rcases List.mem_cons.mp hf with rfl | hf'
        · exact absurd rfl ha
        · exact hf'
      exact ih (fun i hi hne => hothers i (List.mem_cons_of_mem a hi) hne) hf'

/-- C3: the partial-update function passed to `onCompletePage` for a
finished image of page number `k` changes only the `imageUrl` of pages
whose `pageNumber` equals `k`: on a non-null previous story it preserves
the title, the number and order of pages, every field of every page whose
`pageNumber` differs from `k`, and the `storyText` and
`illustrationPrompt` (and `pageNumber`) of the matching pages. -/
theorem update_frame (s : Story) (k : Nat) (url : String) :
    ∃ s', onCompletePageUpdater k url (some s) = some s' ∧
      s'.title = s.title ∧
      s'.pages.length = s.pages.length ∧
      ∀ (j : Nat) (p : StoryPage), s.pages[j]? = some p →
        ∃ q : StoryPage, s'.pages[j]? = some q ∧
          q.pageNumber = p.pageNumber ∧
          q.storyText = p.storyText ∧
          q.illustrationPrompt = p.illustrationPrompt ∧
          (p.pageNumber ≠ k → q = p) ∧
          (p.pageNumber = k → q.imageUrl = some url) := by
  refine ⟨applyImageUpdate k url s, rfl, rfl, by simp [applyImageUpdate, applyUpd], ?_⟩
  intro j p hp
  refine ⟨updatePage k url p, ?_, ?_⟩
  · simp [applyImageUpdate, applyUpd, List.getElem?_map, hp]
  · by_cases hk : p.pageNumber = k <;> simp [updatePage, hk]

/-- Witness for C3: the update for page 2 on a concrete two-page story. -/
theorem update_frame_witness :
    ∃ s', onCompletePageUpdater 2 "u"
        (some ⟨"T", [⟨1, "a", "i", none⟩, ⟨2, "b", "j", some "old"⟩]⟩) = some s' ∧
      s'.title = "T" ∧
      s'.pages.length = ([⟨1, "a", "i", none⟩, ⟨2, "b", "j", some "old"⟩] : List StoryPage).length ∧
      ∀ (j : Nat) (p : StoryPage), ([⟨1, "a", "i", none⟩, ⟨2, "b", "j", some "old"⟩] : List StoryPage)[j]? = some p →
        ∃ q : StoryPage, s'.pages[j]? = some q ∧
          q.pageNumber = p.pageNumber ∧
          q.storyText = p.storyText ∧
          q.illustrationPrompt = p.illustrationPrompt ∧
          (p.pageNumber ≠ 2 → q = p) ∧
          (p.pageNumber = 2 → q.imageUrl = some "u") :=
  update_frame ⟨"T", [⟨1, "a", "i", none⟩, ⟨2, "b", "j", some "old"⟩]⟩ 2 "u"

/-- Partial updates for distinct page numbers commute. -/
theorem applyImageUpdate_comm (k₁ k₂ : Nat) (u₁ u₂ : String) (h : k₁ ≠ k₂) (s : Story) :
    applyImageUpdate k₂ u₂ (applyImageUpdate k₁ u₁ s) =
      applyImageUpdate k₁ u₁ (applyImageUpdate k₂ u₂ s) := by
  simp only [applyImageUpdate, applyUpd, List.map_map]
  have hfun : updatePage k₂ u₂ ∘ updatePage k₁ u₁ = updatePage k₁ u₁ ∘ updatePage k₂ u₂ := by
    funext p
    by_cases h1 : p.pageNumber = k₁ <;> by_cases h2 : p.pageNumber = k₂ <;>
      simp_all [updatePage, Function.comp]
  rw [hfun]

/-- C2: for a story whose pages have pairwise-distinct page numbers and one
image result per page, applying the per-image partial updates in any
permutation of arrival order yields the same final Story. -/
theorem update_order_irrelevant (s : Story) (ups₁ ups₂ : List (Nat × String))
    (hdist : (s.pages.map StoryPage.pageNumber).Nodup)
    (hkeys : ups₁.map Prod.fst = s.pages.map StoryPage.pageNumber)
    (hperm : ups₁.Perm ups₂) :
    ups₁.foldl (fun st ku => applyImageUpdate ku.1 ku.2 st) s =
      ups₂.foldl (fun st ku => applyImageUpdate ku.1 ku.2 st) s := by
  apply hperm.foldl_eq'
  intro x hx y hy z
  by_cases hxy : x.1 = y.1
  · have hnd : (ups₁.map Prod.fst).Nodup := by rw [hkeys]; exact hdist
    have hxeq : x = y := List.inj_on_of_nodup_map hnd hx hy hxy
    rw [hxeq]
  · exact applyImageUpdate_comm x.1 y.1 x.2 y.2 hxy z

/-- Witness for C2: pages 1 and 2 resolving as `[(1,u),(2,v)]` or
`[(2,v),(1,u)]` give the same final story. -/
theorem update_order_irrelevant_witness :
    [((1 : Nat), "u"), (2, "v")].foldl (fun st ku => applyImageUpdate ku.1 ku.2 st)
        ⟨"T", [⟨1, "a", "i", none⟩, ⟨2, "b", "j", none⟩]⟩ =
      [((2 : Nat), "v"), (1, "u")].foldl (fun st ku => applyImageUpdate ku.1 ku.2 st)
        ⟨"T", [⟨1, "a", "i", none⟩, ⟨2, "b", "j", none⟩]⟩ :=
  update_order_irrelevant ⟨"T", [⟨1, "a", "i", none⟩, ⟨2, "b", "j", none⟩]⟩
    [(1, "u"), (2, "v")] [(2, "v"), (1, "u")] (by decide) (by decide) (by decide)

/-- C5: if the character-profile stage fails, `generateStoryAndImages`
stops after the `loadingCharacter` progress report and the character
request: no story-structure request, no image request, no publication to
the `onCompletePage` sink, and the classified error propagates to the
caller. -/
theorem character_failure_aborts (numberOfPages : Nat) (oracle : Oracle)
    (order : List Nat) (e : String)
    (h : oracle.characterResp = Except.error e) :
    runStoryAndImages numberOfPages oracle order =
      ([Event.progress "loadingCharacter" none none, Event.characterRequest],
       Except.error (handleApiError e ErrKey.characterFailed)) ∧
    ∀ ev ∈ (runStoryAndImages numberOfPages oracle order).1,
      (∀ n, ev ≠ Event.storyRequest n) ∧
      (∀ i, ev ≠ Event.imageRequest i) ∧
      (∀ s, ev ≠ Event.publishStory s) ∧
      (∀ pn u, ev ≠ Event.publishUpdate pn u) := by
  have hrun : runStoryAndImages numberOfPages oracle order =
      ([Event.progress "loadingCharacter" none none, Event.characterRequest],
       Except.error (handleApiError e ErrKey.characterFailed)) := by
    simp [runStoryAndImages, generateCharacterProfile, h]
  refine ⟨hrun, ?_⟩
  rw [hrun]
  intro ev hev
  simp only [List.mem_cons, List.not_mem_nil, or_false] at hev
  rcases hev with rfl | rfl <;> refine ⟨?_, ?_, ?_, ?_⟩ <;> intros <;> simp

/-- Witness for C5: a concrete run whose character stage rejects with a
server error. -/
theorem character_failure_aborts_witness :
    runStoryAndImages 3
        ⟨Except.error "boom [500]", Except.ok ⟨"T", []⟩, fun _ => Except.ok "B"⟩ [] =
      ([Event.progress "loadingCharacter" none none, Event.characterRequest],
       Except.error (handleApiError "boom [500]" ErrKey.characterFailed)) ∧
    ∀ ev ∈ (runStoryAndImages 3
        ⟨Except.error "boom [500]", Except.ok ⟨"T", []⟩, fun _ => Except.ok "B"⟩ []).1,
      (∀ n, ev ≠ Event.storyRequest n) ∧
      (∀ i, ev ≠ Event.imageRequest i) ∧
      (∀ s, ev ≠ Event.publishStory s) ∧
      (∀ pn u, ev ≠ Event.publishUpdate pn u) :=
  character_failure_aborts 3
    ⟨Except.error "boom [500]", Except.ok ⟨"T", []⟩, fun _ => Except.ok "B"⟩ [] "boom [500]" rfl

/-- `loadingReady` is not among the painting reports or image requests. -/
theorem readyEv_not_mem_painting (m : Nat) : readyEv ∉ paintingEvents m := by
  intro h
  simp only [paintingEvents, List.mem_flatMap, List.mem_range, List.mem_cons,
    List.not_mem_nil, or_false] at h
  obtain ⟨i, _, h | h⟩ := h <;> simp [readyEv] at h

/-- `loadingReady` is not among the published per-image updates. -/
theorem readyEv_not_mem_completions (pages : List StoryPage)
    (img : Nat → Except String String) (order : List Nat) :
    readyEv ∉ completionEvents pages img order := by
  intro h
  simp only [completionEvents, List.mem_map] at h
  obtain ⟨ku, _, h⟩ := h
  simp [readyEv] at h

/-- `loadingReady` does not occur in the trace prefix. -/
theorem count_readyEv_preTrace (n : Nat) (story : Story) :
    (preTrace n story).count readyEv = 0 := by
  rw [List.count_eq_zero]
  intro h
  simp only [preTrace, List.mem_append, List.mem_cons, List.not_mem_nil, or_false] at h
  rcases h with (h | h | h | h | h) | h
  · simp [readyEv] at h
  · simp [readyEv] at h
  · simp [readyEv] at h
  · simp [readyEv] at h
  · simp [readyEv] at h
  · exact readyEv_not_mem_painting story.pages.length h

/-- C4: `loadingReady` is reported exactly once, as the very last callback
of a run in which every stage and every image request fulfilled (hence
after all image completions), and never in a run that rejected (so never
before the image fan-in has settled). -/
theorem ready_last_iff_success (n : Nat) (oracle : Oracle) (order : List Nat) :
    ((runStoryAndImages n oracle order).2 = Except.ok () →
      (runStoryAndImages n oracle order).1.count readyEv = 1 ∧
      (runStoryAndImages n oracle order).1.getLast? = some readyEv) ∧
    ∀ err, (runStoryAndImages n oracle order).2 = Except.error err →
      (runStoryAndImages n oracle order).1.count readyEv = 0 := by
  cases hc : generateCharacterProfile oracle.characterResp with
  | error e =>
    have hrun : runStoryAndImages n oracle order =
        ([Event.progress "loadingCharacter" none none, Event.characterRequest],
         Except.error e) := by
      simp [runStoryAndImages, hc]
    rw [hrun]
    refine ⟨fun h => by simp at h, fun err _ => ?_⟩
    simp [readyEv, List.count_cons]
  | ok profile =>
    cases hs : generateStoryContent oracle.storyResp with
    | error e =>
      have hrun : runStoryAndImages n oracle order =
          ([Event.progress "loadingCharacter" none none, Event.characterRequest,
            Event.progress "loadingCrafting" none none, Event.storyRequest n],
           Except.error e) := by
        simp [runStoryAndImages, hc, hs]
      rw [hrun]
      refine ⟨fun h => by simp at h, fun err _ => ?_⟩
      simp [readyEv, List.count_cons]
    | ok story =>
      cases hfe : firstImageError oracle.imageResp order with
      | some err =>
        rw [run_err_shape n oracle order story profile err hc hs hfe]
        refine ⟨by intro h; simp at h, fun err' _ => ?_⟩
        simp only [List.count_append]
        rw [count_readyEv_preTrace,
          List.count_eq_zero.mpr (readyEv_not_mem_completions story.pages oracle.imageResp order)]
      | none =>
        rw [run_ok_shape n oracle order story profile hc hs hfe]
        refine ⟨fun _ => ⟨?_, ?_⟩, fun err h => by simp at h⟩
        · simp only [List.count_append]
          rw [count_readyEv_preTrace,
            List.count_eq_zero.mpr (readyEv_not_mem_completions story.pages oracle.imageResp order)]
          simp [List.count_cons]
        · rw [List.append_assoc, List.getLast?_append]
          simp

/-- Witness for C4: a concrete one-page run that succeeds. -/
theorem ready_last_iff_success_witness :
    (runStoryAndImages 1
        ⟨Except.ok "prof", Except.ok ⟨"T", [⟨1, "a", "ip", none⟩]⟩,
         fun _ => Except.ok "B"⟩ [0]).1.count readyEv = 1 ∧
    (runStoryAndImages 1
        ⟨Except.ok "prof", Except.ok ⟨"T", [⟨1, "a", "ip", none⟩]⟩,
         fun _ => Except.ok "B"⟩ [0]).1.getLast? = some readyEv :=
  (ready_last_iff_success 1
      ⟨Except.ok "prof", Except.ok ⟨"T", [⟨1, "a", "ip", none⟩]⟩,
       fun _ => Except.ok "B"⟩ [0]).1 rfl

/-- C1 is false as stated: `generateStoryContent` only validates that the
returned page list is non-empty, never that it has the requested length,
so a run requesting 2 pages whose story-structure response has 1 page
completes successfully with a 1-page story. -/
theorem run_page_count_not_enforced :
    (runStoryAndImages 2
        ⟨Except.ok "prof", Except.ok ⟨"T", [⟨1, "a", "ip", none⟩]⟩,
         fun _ => Except.ok "B"⟩ [0]).2 = Except.ok () ∧
    finalState (runStoryAndImages 2
        ⟨Except.ok "prof", Except.ok ⟨"T", [⟨1, "a", "ip", none⟩]⟩,
         fun _ => Except.ok "B"⟩ [0]).1 =
      some ⟨"T", [⟨1, "a", "ip", some "data:image/jpeg;base64,B"⟩]⟩ ∧
    (⟨"T", [⟨1, "a", "ip", some "data:image/jpeg;base64,B"⟩]⟩ : Story).pages.length ≠ 2 := by
  refine ⟨rfl, rfl, by decide⟩

/-- C1 (amended): for every request, if `generateStoryAndImages` completes
without throwing, the Story last published to the `onCompletePage` sink
has exactly as many pages as the story-structure response (which is
validated to be non-empty but not to match the requested page count), and
every page has a non-empty `imageUrl`. -/
theorem run_ok_final_story (n : Nat) (oracle : Oracle) (order : List Nat) (story : Story)
    (hs : generateStoryContent oracle.storyResp = Except.ok story)
    (hperm : order.Perm (List.range story.pages.length))
    (hok : (runStoryAndImages n oracle order).2 = Except.ok ()) :
    ∃ st : Story, finalState (runStoryAndImages n oracle order).1 = some st ∧
      st.pages.length = story.pages.length ∧
      ∀ p ∈ st.pages, ∃ u, p.imageUrl = some u ∧ u ≠ "" := by
  obtain ⟨⟨profile, hc⟩, ⟨story', hs'⟩, hfe⟩ := run_ok_inversion n oracle order hok
  have hfin := finalState_run n oracle order story profile hc hs
  set ups := arrivedUpdates story.pages oracle.imageResp order with hups
  refine ⟨_, hfin, foldl_applyUpd_length ups story.pages, ?_⟩
  intro p hp
  obtain ⟨j, hj⟩ := List.mem_iff_getElem?.mp hp
  have hjlt : j < story.pages.length := by
    have := (List.getElem?_eq_some_iff.mp hj).1
    rwa [foldl_applyUpd_length ups story.pages] at this
  obtain ⟨p₀, hp₀⟩ : ∃ p₀, story.pages[j]? = some p₀ :=
    ⟨_, List.getElem?_eq_getElem hjlt⟩
  obtain ⟨q, hq, _, _, _, hcase⟩ := foldl_applyUpd_tracking ups story.pages j p₀ hp₀
  have hqp : q = p := by rw [hj] at hq; exact (Option.some_inj.mp hq).symm
  subst hqp
  have hjo : j ∈ order := hperm.mem_iff.mpr (List.mem_range.mpr hjlt)
  obtain ⟨u, hu⟩ := (firstImageError_eq_none_iff oracle.imageResp order).mp hfe j hjo
  have hcover : (p₀.pageNumber, u) ∈ ups :=
    arrivedUpdates_cover story.pages oracle.imageResp order j p₀ u hjo hp₀ hu
  rcases hcase with ⟨_, hnone⟩ | ⟨ku, hmem, _, hurl⟩
  · exact absurd rfl (hnone (p₀.pageNumber, u) hcover)
  · exact ⟨ku.2, hurl, arrivedUpdates_urls_ne_empty story.pages oracle.imageResp order ku hmem⟩

/-- Witness for C1 (amended): a successful two-page run with the images
arriving out of order. -/
theorem run_ok_final_story_witness :
    ∃ st : Story, finalState (runStoryAndImages 2
        ⟨Except.ok "prof", Except.ok ⟨"T", [⟨1, "a", "i1", none⟩, ⟨2, "b", "i2", none⟩]⟩,
         fun _ => Except.ok "B"⟩ [1, 0]).1 = some st ∧
      st.pages.length = (⟨"T", [⟨1, "a", "i1", none⟩, ⟨2, "b", "i2", none⟩]⟩ : Story).pages.length ∧
      ∀ p ∈ st.pages, ∃ u, p.imageUrl = some u ∧ u ≠ "" :=
  run_ok_final_story 2
    ⟨Except.ok "prof", Except.ok ⟨"T", [⟨1, "a", "i1", none⟩, ⟨2, "b", "i2", none⟩]⟩,
     fun _ => Except.ok "B"⟩ [1, 0]
    ⟨"T", [⟨1, "a", "i1", none⟩, ⟨2, "b", "i2", none⟩]⟩ rfl (by decide) rfl

/-- C6: if exactly one of the per-page image requests fails,
`generateStoryAndImages` rejects with the categorized `ApiError` of that
failure (classified under the `imageFailed` context key), and every
partial update applied for an image that completed remains in the caller's
final state: those pages keep a non-empty `imageUrl`, nothing is rolled
back or cleared. -/
theorem single_image_failure (n : Nat) (oracle : Oracle) (order : List Nat)
    (story : Story) (profile : String) (f : Nat) (err : ApiError)
    (hc : generateCharacterProfile oracle.characterResp = Except.ok profile)
    (hs : generateStoryContent oracle.storyResp = Except.ok story)
    (hperm : order.Perm (List.range story.pages.length))
    (herr : generateImageForPage (oracle.imageResp f) = Except.error err)
    (hothers : ∀ i < story.pages.length, i ≠ f →
      ∃ u, generateImageForPage (oracle.imageResp i) = Except.ok u)
    (hf : f < story.pages.length) :
    ((runStoryAndImages n oracle order).2 = Except.error err ∧
      ∃ raw, err = handleApiError raw ErrKey.imageFailed) ∧
    ∃ st : Story, finalState (runStoryAndImages n oracle order).1 = some st ∧
      st.pages.length = story.pages.length ∧
      ∀ i ∈ order, i ≠ f →
        ∃ q : StoryPage, st.pages[i]? = some q ∧ ∃ u, q.imageUrl = some u ∧ u ≠ "" := by
  have hmemord : ∀ i ∈ order, i < story.pages.length := fun i hi =>
    List.mem_range.mp (hperm.mem_iff.mp hi)
  have hfe : firstImageError oracle.imageResp order = some err :=
    firstImageError_unique oracle.imageResp order f err herr
      (fun i hi hne => hothers i (hmemord i hi) hne)
      (hperm.mem_iff.mpr (List.mem_range.mpr hf))
  constructor
  · constructor
    · rw [run_err_shape n oracle order story profile err hc hs hfe]
    · exact generateImageForPage_error_shape herr
  · have hfin := finalState_run n oracle order story profile hc hs
    set ups := arrivedUpdates story.pages oracle.imageResp order with hups
    refine ⟨_, hfin, foldl_applyUpd_length ups story.pages, ?_⟩
    intro i hi hne
    have hilt : i < story.pages.length := hmemord i hi
    obtain ⟨p₀, hp₀⟩ : ∃ p₀, story.pages[i]? = some p₀ :=
      ⟨_, List.getElem?_eq_getElem hilt⟩
    obtain ⟨q, hq, _, _, _, hcase⟩ := foldl_applyUpd_tracking ups story.pages i p₀ hp₀
    obtain ⟨u, hu⟩ := hothers i hilt hne
    have hcover : (p₀.pageNumber, u) ∈ ups :=
      arrivedUpdates_cover story.pages oracle.imageResp order i p₀ u hi hp₀ hu
    rcases hcase with ⟨_, hnone⟩ | ⟨ku, hmem, _, hurl⟩
    · exact absurd rfl (hnone (p₀.pageNumber, u) hcover)
    · exact ⟨q, hq, ku.2, hurl,
        arrivedUpdates_urls_ne_empty story.pages oracle.imageResp order ku hmem⟩

/-- Witness for C6: page 1 of a two-page story fails with a server error
after page 0's image completed; the completed page keeps its image. -/
theorem single_image_failure_witness :
    ((runStoryAndImages 2
        ⟨Except.ok "prof", Except.ok ⟨"T", [⟨1, "a", "i1", none⟩, ⟨2, "b", "i2", none⟩]⟩,
         fun i => if i = 0 then Except.ok "B" else Except.error "img [503]"⟩ [0, 1]).2 =
        Except.error (handleApiError "img [503]" ErrKey.imageFailed) ∧
      ∃ raw, handleApiError "img [503]" ErrKey.imageFailed =
        handleApiError raw ErrKey.imageFailed) ∧
    ∃ st : Story, finalState (runStoryAndImages 2
        ⟨Except.ok "prof", Except.ok ⟨"T", [⟨1, "a", "i1", none⟩, ⟨2, "b", "i2", none⟩]⟩,
         fun i => if i = 0 then Except.ok "B" else Except.error "img [503]"⟩ [0, 1]).1 = some st ∧
      st.pages.length =
        (⟨"T", [⟨1, "a", "i1", none⟩, ⟨2, "b", "i2", none⟩]⟩ : Story).pages.length ∧
      ∀ i ∈ [0, 1], i ≠ 1 →
        ∃ q : StoryPage, st.pages[i]? = some q ∧ ∃ u, q.imageUrl = some u ∧ u ≠ "" :=
  single_image_failure 2
    ⟨Except.ok "prof", Except.ok ⟨"T", [⟨1, "a", "i1", none⟩, ⟨2, "b", "i2", none⟩]⟩,
     fun i => if i = 0 then Except.ok "B" else Except.error "img [503]"⟩ [0, 1]
    ⟨"T", [⟨1, "a", "i1", none⟩, ⟨2, "b", "i2", none⟩]⟩ ("prof".trim) 1
    (handleApiError "img [503]" ErrKey.imageFailed) rfl rfl (by decide) rfl
    (by
      intro i hi hne
      have h2 : i < 2 := by simpa using hi
      have h0 : i = 0 := by omega
      subst h0
      exact ⟨"data:image/jpeg;base64,B", rfl⟩)
    (by decide)

/-- One navigation click keeps the page index inside `[0, totalPages - 1]`. -/
theorem navStep_bounds (T : Int) (hT : 1 ≤ T) (op : NavOp) (cur : Int)
    (h0 : 0 ≤ cur) (h1 : cur ≤ T - 1) :
    0 ≤ navStep T cur op ∧ navStep T cur op ≤ T - 1 := by
  cases op
  · simp only [navStep, goToNextPage]
    rw [Int.min_def]
    split <;> omega
  · simp only [navStep, goToPrevPage]
    rw [Int.max_def]
    split <;> omega

/-- Folding navigation clicks preserves the index bounds. -/
theorem foldl_nav_bounds (T : Int) (hT : 1 ≤ T) (ops : List NavOp) :
    ∀ cur : Int, 0 ≤ cur → cur ≤ T - 1 →
      0 ≤ ops.foldl (navStep T) cur ∧ ops.foldl (navStep T) cur ≤ T - 1 := by
  induction ops with
  | nil => intro cur h0 h1; exact ⟨h0, h1⟩
  | cons op rest ih =>
    intro cur h0 h1
    have hs := navStep_bounds T hT op cur h0 h1
    simpa using ih (navStep T cur op) hs.1 hs.2

/-- C10: in the StorybookViewer, for every story with `totalPages ≥ 1` and
every sequence of next-page/previous-page clicks starting from page index
0, the current page index stays in `[0, totalPages - 1]`: `goToNextPage`
clamps at the last page and `goToPrevPage` clamps at page 0. -/
theorem nav_current_page_in_range (totalPages : Int) (h : 1 ≤ totalPages)
    (ops : List NavOp) :
    0 ≤ runNav totalPages ops ∧ runNav totalPages ops ≤ totalPages - 1 := by
  unfold runNav
  exact foldl_nav_bounds totalPages h ops 0 le_rfl (by omega)

/-- Witness for C10: three next clicks and one prev click on a 3-page
story stay within `[0, 2]`. -/
theorem nav_current_page_in_range_witness :
    0 ≤ runNav 3 [NavOp.next, NavOp.next, NavOp.next, NavOp.prev] ∧
    runNav 3 [NavOp.next, NavOp.next, NavOp.next, NavOp.prev] ≤ 3 - 1 :=
  nav_current_page_in_range 3 (by norm_num) [NavOp.next, NavOp.next, NavOp.next, NavOp.prev]

/-- Splitting on blank lines always produces at least one block. -/
theorem splitBB_ne_nil (cs : List Char) : splitBB cs ≠ [] := by
  induction cs using splitBB.induct with
  | case1 => simp [splitBB]
  | case2 c => simp [splitBB]
  | case3 c₁ c₂ rest h ih => rw [splitBB, if_pos h]; simp
  | case4 c₁ c₂ rest h hs ih => rw [splitBB, if_neg h, hs]; simp
  | case5 c₁ c₂ rest h b bs hs ih => rw [splitBB, if_neg h, hs]; simp

/-- A block without a blank line is not split. -/
theorem splitBB_no_bb (cs : List Char) (h : hasBB cs = false) : splitBB cs = [cs] := by
  induction cs using splitBB.induct with
  | case1 => rfl
  | case2 c => rfl
  | case3 c₁ c₂ rest h12 ih =>
    rw [hasBB] at h
    rcases h12 with ⟨rfl, rfl⟩
    simp at h
  | case4 c₁ c₂ rest h12 hs ih =>
    exact absurd hs (splitBB_ne_nil (c₂ :: rest))
  | case5 c₁ c₂ rest h12 b bs hs ih =>
    rw [hasBB, Bool.or_eq_false_iff] at h
    have hrec := ih h.2
    rw [hs] at hrec
    cases hrec
    rw [splitBB, if_neg h12, hs]

/-- Splitting a concatenation at an explicit blank-line boundary, when the
first block is boundary-free and does not end in a newline. -/
theorem splitBB_append (b : List Char) (rest : List Char) (hb : hasBB b = false)
    (hlast : b.getLast? ≠ some '\n') :
    splitBB (b ++ '\n' :: '\n' :: rest) = b :: splitBB rest := by
  induction b using splitBB.induct with
  | case1 =>
    rw [List.nil_append, splitBB, if_pos ⟨rfl, rfl⟩]
  | case2 c =>
    have hc : ¬(c = '\n' ∧ '\n' = '\n') := by
      rintro ⟨rfl, -⟩
      exact hlast rfl
    rw [List.cons_append, List.nil_append, splitBB, if_neg hc,
      show splitBB ('\n' :: '\n' :: rest) = [] :: splitBB rest by
        rw [splitBB, if_pos ⟨rfl, rfl⟩]]
  | case3 c₁ c₂ b' h12 ih =>
    rcases h12 with ⟨rfl, rfl⟩
    rw [hasBB] at hb
    simp at hb
  | case4 c₁ c₂ b' h12 hs ih =>
    exact absurd hs (splitBB_ne_nil (c₂ :: b'))
  | case5 c₁ c₂ b' h12 b₀ bs hs ih =>
    rw [hasBB, Bool.or_eq_false_iff] at hb
    rw [List.getLast?_cons_cons] at hlast
    have hrec : splitBB (c₂ :: (b' ++ '\n' :: '\n' :: rest)) = (c₂ :: b') :: splitBB rest :=
      ih hb.2 hlast
    show splitBB (c₁ :: c₂ :: (b' ++ '\n' :: '\n' :: rest)) = (c₁ :: c₂ :: b') :: splitBB rest
    rw [splitBB, if_neg h12, hrec]

/-- `Nat.digitChar` never yields a newline. -/
theorem digitChar_ne_newline (k : Nat) : Nat.digitChar k ≠ '\n' := by
  by_cases hk : k < 16
  · interval_cases k <;> decide
  · have h : Nat.digitChar k = '*' := by
      unfold Nat.digitChar
      repeat rw [if_neg (by omega)]
    rw [h]
    decide

/-- `Nat.toDigitsCore` on a newline-free accumulator stays newline-free. -/
theorem toDigitsCore_ne_newline (b : Nat) : ∀ (fuel n : Nat) (ds : List Char),
    (∀ c ∈ ds, c ≠ '\n') → ∀ c ∈ Nat.toDigitsCore b fuel n ds, c ≠ '\n' := by
  intro fuel
  induction fuel with
  | zero => intro n ds hds; simpa [Nat.toDigitsCore] using hds
  | succ fuel ih =>
    intro n ds hds c hc
    rw [Nat.toDigitsCore] at hc
    split at hc
    · rcases List.mem_cons.mp hc with rfl | hmem
      · exact digitChar_ne_newline _
      · exact hds c hmem
    · refine ih (n / b) (Nat.digitChar (n % b) :: ds) ?_ c hc
      intro d hd
      rcases List.mem_cons.mp hd with rfl | hmem
      · exact digitChar_ne_newline _
      · exact hds d hmem

/-- The decimal representation of a page number contains no newline. -/
theorem repr_ne_newline (n : Nat) : ∀ c ∈ (Nat.repr n).data, c ≠ '\n' :=
  toDigitsCore_ne_newline 10 (n + 1) n [] (by simp)

/-- A newline-free character list has no blank-line boundary. -/
theorem hasBB_of_no_newline (l : List Char) (h : ∀ c ∈ l, c ≠ '\n') : hasBB l = false := by
  induction l using hasBB.induct with
  | case1 => rfl
  | case2 c => rfl
  | case3 c₁ c₂ rest ih =>
    rw [hasBB, Bool.or_eq_false_iff]
    refine ⟨?_, ih (fun c hc => h c (List.mem_cons_of_mem c₁ hc))⟩
    simp [h c₁ (List.mem_cons_self c₁ (c₂ :: rest))]

/-- Prepending a newline to a text that neither starts with a newline nor
contains a blank line yields no blank line. -/
theorem hasBB_newline_cons (text : List Char) (hh : text.head? ≠ some '\n')
    (hbb : hasBB text = false) : hasBB ('\n' :: text) = false := by
  cases text with
  | nil => rfl
  | cons t ts =>
    rw [hasBB, Bool.or_eq_false_iff]
    refine ⟨?_, hbb⟩
    have ht : t ≠ '\n' := fun hc => hh (by rw [List.head?_cons, hc])
    simp [ht]

/-- Blank-line-freeness is preserved by concatenation when the boundary
does not create a newline pair. -/
theorem hasBB_append_false (xs ys : List Char) (hxs : hasBB xs = false)
    (hys : hasBB ys = false)
    (hbd : xs.getLast? = some '\n' → ys.head? ≠ some '\n') :
    hasBB (xs ++ ys) = false := by
  induction xs using hasBB.induct with
  | case1 => simpa using hys
  | case2 c =>
    cases ys with
    | nil => rfl
    | cons d ys' =>
      show hasBB (c :: d :: ys') = false
      rw [hasBB, Bool.or_eq_false_iff]
      refine ⟨?_, hys⟩
      by_cases hc : c = '\n'
      · have hd : d ≠ '\n' := by
          have := hbd (by rw [hc]; rfl)
          exact fun hdc => this (by rw [List.head?_cons, hdc])
        simp [hd]
      · simp [hc]
  | case3 c₁ c₂ rest ih =>
    rw [hasBB, Bool.or_eq_false_iff] at hxs
    rw [List.getLast?_cons_cons] at hbd
    have hrec : hasBB (c₂ :: (rest ++ ys)) = false := ih hxs.2 hbd
    show hasBB (c₁ :: c₂ :: (rest ++ ys)) = false
    rw [hasBB, Bool.or_eq_false_iff]
    exact ⟨hxs.1, hrec⟩

/-- `toString` on a natural number is its decimal representation. -/
theorem toString_nat_eq_repr (n : Nat) : toString n = Nat.repr n := rfl

/-- The characters of a `story.txt` page block: the `Page <n>` label, a
newline, then the page text. -/
theorem pageBlockStr_data (p : StoryPage) :
    (pageBlockStr p).data =
      ("Page ".data ++ (Nat.repr p.pageNumber).data) ++ '\n' :: p.storyText.data := by
  have hn : ("\n" : String).data = ['\n'] := rfl
  simp [pageBlockStr, toString_nat_eq_repr, String.data_append, hn, List.append_assoc]

/-- The `Page <n>` label contains no newline. -/
theorem pageLabel_ne_newline (n : Nat) :
    ∀ c ∈ "Page ".data ++ (Nat.repr n).data, c ≠ '\n' := by
  intro c hc
  rcases List.mem_append.mp hc with h | h
  · have hp : "Page ".data = ['P', 'a', 'g', 'e', ' '] := rfl
    rw [hp] at h
    simp only [List.mem_cons, List.not_mem_nil, or_false] at h
    rcases h with rfl | rfl | rfl | rfl | rfl <;> decide
  · exact repr_ne_newline n c h

/-- A page block with a well-behaved text contains no blank line. -/
theorem pageBlock_hasBB (p : StoryPage)
    (hh : p.storyText.data.head? ≠ some '\n')
    (hbb : hasBB p.storyText.data = false) :
    hasBB (pageBlockStr p).data = false := by
  rw [pageBlockStr_data]
  apply hasBB_append_false
  · exact hasBB_of_no_newline _ (pageLabel_ne_newline p.pageNumber)
  · exact hasBB_newline_cons _ hh hbb
  · intro hl
    exact absurd rfl
      (pageLabel_ne_newline p.pageNumber '\n' (List.mem_of_getLast?_eq_some hl))

/-- A page block whose text is non-empty and does not end in a newline
does not end in a newline. -/
theorem pageBlock_getLast (p : StoryPage) (htne : p.storyText.data ≠ [])
    (hlast : p.storyText.data.getLast? ≠ some '\n') :
    (pageBlockStr p).data.getLast? ≠ some '\n' := by
  rw [pageBlockStr_data, List.getLast?_append]
  cases htext : p.storyText.data with
  | nil => exact absurd htext htne
  | cons t ts =>
    rw [htext] at hlast
    rw [List.getLast?_cons_cons]
    cases hgl : (t :: ts).getLast? with
    | none => simp [List.getLast?_eq_none_iff] at hgl
    | some x =>
      rw [hgl] at hlast
      show Option.some x ≠ some '\n'
      exact hlast

/-- Everything after a block's label line is exactly its text. -/
theorem afterFirstNewline_append (label text : List Char)
    (h : ∀ c ∈ label, c ≠ '\n') :
    afterFirstNewline (label ++ '\n' :: text) = text := by
  induction label with
  | nil =>
    rw [List.nil_append, afterFirstNewline, List.dropWhile_cons, if_neg (by simp)]
    rfl
  | cons c label' ih =>
    have hc : c ≠ '\n' := h c (List.mem_cons_self c label')
    rw [List.cons_append, afterFirstNewline, List.dropWhile_cons, if_pos (by simpa using hc)]
    exact ih (fun d hd => h d (List.mem_cons_of_mem c hd))

/-- Splitting the joined blocks recovers the blocks, when every block is
blank-line-free and does not end in a newline. -/
theorem splitBB_joinSep (blocks : List String) (hne : blocks ≠ [])
    (hgood : ∀ b ∈ blocks, hasBB b.data = false ∧ b.data.getLast? ≠ some '\n') :
    splitBB (joinSep "\n\n" blocks).data = blocks.map String.data := by
  induction blocks with
  | nil => exact absurd rfl hne
  | cons b rest ih =>
    cases rest with
    | nil =>
      show splitBB b.data = [b.data]
      exact splitBB_no_bb b.data (hgood b (List.mem_cons_self b [])).1
    | cons c rest' =>
      have hj : joinSep "\n\n" (b :: c :: rest') = b ++ "\n\n" ++ joinSep "\n\n" (c :: rest') := rfl
      have hdata : (joinSep "\n\n" (b :: c :: rest')).data =
          b.data ++ '\n' :: '\n' :: (joinSep "\n\n" (c :: rest')).data := by
        have hn : ("\n\n" : String).data = ['\n', '\n'] := rfl
        rw [hj]
        simp [String.data_append, hn, List.append_assoc]
      rw [hdata,
        splitBB_append _ _ (hgood b (List.mem_cons_self b (c :: rest'))).1
          (hgood b (List.mem_cons_self b (c :: rest'))).2,
        ih (by simp) (fun b' hb' => hgood b' (List.mem_cons_of_mem b hb'))]
      rfl

/-- C8 (amended): exporting a completed story to the archive's `story.txt`
format and re-reading it yields the same title and the same per-page
texts, provided the title contains no blank line (two consecutive
newlines) and does not end in a newline, the story has at least one page,
and every page's text is non-empty, contains no blank line, and neither
starts nor ends with a newline. -/
theorem storyTxt_round_trip (s : Story)
    (htb : hasBB s.title.data = false)
    (htl : s.title.data.getLast? ≠ some '\n')
    (hpages : s.pages ≠ [])
    (htexts : ∀ p ∈ s.pages, p.storyText.data ≠ [] ∧
      hasBB p.storyText.data = false ∧
      p.storyText.data.head? ≠ some '\n' ∧
      p.storyText.data.getLast? ≠ some '\n') :
    parseStoryTxt (serializeStoryTxt s) = (s.title, s.pages.map StoryPage.storyText) := by
  have hgood : ∀ b ∈ s.pages.map pageBlockStr,
      hasBB b.data = false ∧ b.data.getLast? ≠ some '\n' := by
    intro b hb
    obtain ⟨p, hp, rfl⟩ := List.mem_map.mp hb
    obtain ⟨h1, h2, h3, h4⟩ := htexts p hp
    exact ⟨pageBlock_hasBB p h3 h2, pageBlock_getLast p h1 h4⟩
  have hblocks : s.pages.map pageBlockStr ≠ [] := by simpa using hpages
  have hdata : (serializeStoryTxt s).data =
      s.title.data ++ '\n' :: '\n' :: (joinSep "\n\n" (s.pages.map pageBlockStr)).data := by
    have hn : ("\n\n" : String).data = ['\n', '\n'] := rfl
    simp [serializeStoryTxt, String.data_append, hn, List.append_assoc]
  have hsplit : splitBB (serializeStoryTxt s).data =
      s.title.data :: (s.pages.map pageBlockStr).map String.data := by
    rw [hdata, splitBB_append _ _ htb htl, splitBB_joinSep _ hblocks hgood]
  simp only [parseStoryTxt, hsplit]
  refine Prod.ext rfl ?_
  rw [List.map_map, List.map_map]
  apply List.map_congr_left
  intro p _
  show String.mk (afterFirstNewline (pageBlockStr p).data) = p.storyText
  rw [pageBlockStr_data, afterFirstNewline_append _ _ (pageLabel_ne_newline p.pageNumber)]

/-- Witness for C8 (amended): a concrete two-page story round-trips. -/
theorem storyTxt_round_trip_witness :
    parseStoryTxt (serializeStoryTxt
        ⟨"T", [⟨1, "hello", "i1", none⟩, ⟨2, "world", "i2", none⟩]⟩) =
      ("T", ["hello", "world"]) :=
  storyTxt_round_trip ⟨"T", [⟨1, "hello", "i1", none⟩, ⟨2, "world", "i2", none⟩]⟩
    (by decide) (by decide) (by decide) (by decide)

/-- C8 is false as stated ("for all title and storyText values"): a title
containing a blank line is split by the reader, so the round trip loses
it. -/
theorem storyTxt_round_trip_cex :
    parseStoryTxt (serializeStoryTxt ⟨"A\n\nB", [⟨1, "x", "p", none⟩]⟩) ≠
      ("A\n\nB", ["x"]) := by
  decide

end Storybook
